import Mathlib

/-
Verification of the StorePlane provisioning orchestrator
(src/backend/src/services/store-service.ts, src/backend/src/utils/k8s-client.ts,
src/backend/src/controllers/store.controller.ts, src/backend/src/types/index.ts).

The TypeScript service is shallowly embedded: the in-memory `Map<string, Store>`
registry becomes an association list, each fallible Kubernetes API call becomes
an explicit result supplied by an environment, and the asynchronous control flow
becomes explicit sequencing with the registry mutations exposed as step
functions.  Randomness (uuid suffixes, generated passwords) and wall-clock
timestamps are inputs.
-/

namespace StorePlane

/-- StoreEngine enum from types/index.ts (values "medusa" / "woocommerce"). -/
inductive StoreEngine where
  | medusa
  | woocommerce
deriving DecidableEq, Repr

/-- The string value of a StoreEngine, as used in namespace labels. -/
def engineLabel : StoreEngine → String
  | .medusa => "medusa"
  | .woocommerce => "woocommerce"

/-- StoreStatus enum from types/index.ts. -/
inductive StoreStatus where
  | provisioning
  | ready
  | failed
  | deleting
  | deleted
deriving DecidableEq, Repr

/-- The `urls` field of a Store: optional storefront/admin endpoints. -/
structure StoreUrls where
  storefront : Option String
  admin : Option String
deriving DecidableEq, Repr

/-- Store interface from types/index.ts.  The TypeScript field `namespace` is a
Lean keyword and is embedded as `nsName`. -/
structure StoreRec where
  id : String
  name : String
  engine : StoreEngine
  status : StoreStatus
  nsName : String
  urls : StoreUrls
  createdAt : String
  error : Option String
deriving DecidableEq, Repr

/-- CreateStoreRequest from types/index.ts. -/
structure CreateStoreRequest where
  name : String
  engine : StoreEngine
deriving DecidableEq, Repr

/-- ResourceQuota from types/index.ts (the per-request quota structure). -/
structure ResourceQuota where
  cpuRequest : String
  cpuLimit : String
  memoryRequest : String
  memoryLimit : String
  storage : String
deriving DecidableEq, Repr

/-- StoreResourceStatus from types/index.ts: the five readiness conditions read
by KubernetesClient.checkResourceStatus. -/
structure StoreResourceStatus where
  deployment : Bool
  service : Bool
  ingress : Bool
  database : Bool
  secrets : Bool
deriving DecidableEq, Repr

/-- The process-environment configuration consumed by the service
(process.env reads in store-service.ts and store.controller.ts). -/
structure EnvConfig where
  defaultDomain : Option String
  ingressClass : Option String
  defaultCpuRequest : Option String
  defaultCpuLimit : Option String
  defaultMemoryRequest : Option String
  defaultMemoryLimit : Option String
  defaultStorage : Option String
  maxStoresPerUser : Option Nat

/-- this.defaultDomain = process.env.DEFAULT_DOMAIN or the literal ".local". -/
def domainOf (cfg : EnvConfig) : String := cfg.defaultDomain.getD ".local"

/-- this.ingressClass = process.env.INGRESS_CLASS or the literal "nginx". -/
def ingressClassOf (cfg : EnvConfig) : String := cfg.ingressClass.getD "nginx"

/-- An error response from the Kubernetes API: optional HTTP status code
(error.response?.statusCode) plus the error message. -/
structure ApiErr where
  statusCode : Option Nat
  message : String
deriving DecidableEq, Repr

/-- Outcome of a KubernetesClient create operation given the API response:
a 409 conflict ("already exists") is swallowed and treated as success, every
other error is re-thrown with its message. -/
def createResult : Option ApiErr → Except String Unit
  | none => .ok ()
  | some e => if e.statusCode = some 409 then .ok () else .error e.message

/-- Outcome of KubernetesClient.deleteNamespace given the API response:
a 404 ("not found") is swallowed and treated as success, every other error is
re-thrown with its message. -/
def deleteResult : Option ApiErr → Except String Unit
  | none => .ok ()
  | some e => if e.statusCode = some 404 then .ok () else .error e.message

/-- The raw results of the five reads performed by checkResourceStatus:
deployment read yields availableReplicas, statefulset read yields
readyReplicas, the service/ingress/secret reads yield only existence. -/
structure ReadResults where
  deploymentRead : Except String Nat
  serviceRead : Except String Unit
  ingressRead : Except String Unit
  databaseRead : Except String Nat
  secretsRead : Except String Unit

/-- KubernetesClient.checkResourceStatus: starts from all-false, performs the
five reads in order (deployment, service, ingress, database, secrets) inside a
single try block; the first read that errors jumps to the catch, which only
logs, so the erroring condition and every condition after it stay false and the
partially-filled status is returned (never thrown). -/
def checkResourceStatus (r : ReadResults) : StoreResourceStatus :=
  let s0 : StoreResourceStatus := ⟨false, false, false, false, false⟩
  match r.deploymentRead with
  | .error _ => s0
  | .ok availableReplicas =>
    let s1 := { s0 with deployment := decide (0 < availableReplicas) }
    match r.serviceRead with
    | .error _ => s1
    | .ok _ =>
      let s2 := { s1 with service := true }
      match r.ingressRead with
      | .error _ => s2
      | .ok _ =>
        let s3 := { s2 with ingress := true }
        match r.databaseRead with
        | .error _ => s3
        | .ok readyReplicas =>
          let s4 := { s3 with database := decide (0 < readyReplicas) }
          match r.secretsRead with
          | .error _ => s4
          | .ok _ => { s4 with secrets := true }

/-- The readiness gate used by waitForStoreReady and refreshStoreStatus
(store-service.ts lines 324 and 378): deployment, database, service, ingress
must all hold in one read; the secrets condition is not part of the gate. -/
def allReady (s : StoreResourceStatus) : Bool :=
  s.deployment && s.database && s.service && s.ingress

/-- Number of the four gated conditions that hold. -/
def condCount (s : StoreResourceStatus) : Nat :=
  (if s.deployment then 1 else 0) + (if s.database then 1 else 0) +
    (if s.service then 1 else 0) + (if s.ingress then 1 else 0)

/-- The timeout error thrown by waitForStoreReady. -/
def timeoutMessage (storeName : String) : String :=
  "Timeout waiting for store " ++ storeName ++ " to be ready"

/-- The polling loop body of waitForStoreReady: at poll index i with the given
remaining iterations, read checkResourceStatus (supplied as polls i), return
success if all four gated conditions hold, otherwise sleep and continue; when
the iterations are exhausted the timeout error is thrown. -/
def waitLoop (storeName : String) (polls : Nat → StoreResourceStatus) :
    Nat → Nat → Except String Unit
  | _, 0 => .error (timeoutMessage storeName)
  | i, fuel + 1 =>
    if allReady (polls i) then .ok () else waitLoop storeName polls (i + 1) fuel

/-- Number of poll iterations within the timeout window: one check every 5
seconds while elapsed < timeoutSeconds, i.e. at 0s, 5s, ... (ideal timing). -/
def numPolls (timeoutSeconds : Nat) : Nat := (timeoutSeconds + 4) / 5

/-- waitForStoreReady: poll checkResourceStatus every 5 seconds until all four
conditions hold in one read, or throw the timeout error once timeoutSeconds
(default 300 at the call site) have elapsed. -/
def waitForStoreReady (storeName : String) (polls : Nat → StoreResourceStatus)
    (timeoutSeconds : Nat) : Except String Unit :=
  waitLoop storeName polls 0 (numPolls timeoutSeconds)

/-- The in-memory registry `stores: Map<string, Store>`, as an association
list keyed by store id. -/
abbrev Registry := List (String × StoreRec)

/-- Map.get. -/
def regGet : Registry → String → Option StoreRec
  | [], _ => none
  | (k, v) :: rest, storeId => if k = storeId then some v else regGet rest storeId

/-- Map.set: replace the existing entry for the key, or append a new one. -/
def regSet : Registry → String → StoreRec → Registry
  | [], storeId, store => [(storeId, store)]
  | (k, v) :: rest, storeId, store =>
    if k = storeId then (storeId, store) :: rest else (k, v) :: regSet rest storeId store

/-- Map.delete. -/
def regRemove : Registry → String → Registry
  | [], _ => []
  | (k, v) :: rest, storeId =>
    if k = storeId then regRemove rest storeId else (k, v) :: regRemove rest storeId

/-- request.name.toLowerCase().replace of every character outside [a-z0-9]
by a dash (store-service.ts line 58), working on the character sequence. -/
def sanitizeName (s : String) : String :=
  String.mk ((s.data.map Char.toLower).map fun c =>
    if ('a' ≤ c ∧ c ≤ 'z') ∨ ('0' ≤ c ∧ c ≤ '9') then c else '-')

/-- storeId = sanitized name, a dash, and the first 8 characters of a fresh
uuid (the uuid slice is the `suffix` input). -/
def mkStoreId (name suffix : String) : String :=
  sanitizeName name ++ "-" ++ suffix

/-- StoreOrchestrationService.createStore: build the store record with status
PROVISIONING, empty urls and namespace "store-" ++ storeId, insert it into the
registry, and return it; provisioning then runs as a detached task. -/
def createStore (reg : Registry) (req : CreateStoreRequest) (suffix createdAt : String) :
    StoreRec × Registry :=
  let storeId := mkStoreId req.name suffix
  let store : StoreRec :=
    { id := storeId
      name := req.name
      engine := req.engine
      status := .provisioning
      nsName := "store-" ++ storeId
      urls := { storefront := none, admin := none }
      createdAt := createdAt
      error := none }
  (store, regSet reg storeId store)

/-- The urls assigned on successful provisioning (store-service.ts 149-152)
and by startup reconciliation (lines 43-46). -/
def mkUrls (cfg : EnvConfig) (storeName : String) : StoreUrls :=
  { storefront := some ("http://" ++ storeName ++ domainOf cfg)
    admin := some ("http://" ++ storeName ++ "-admin" ++ domainOf cfg) }

/-- The database credentials generated in provisionStore step 3: fixed
username "storeuser", a random password (an input here), and a database name
derived from the store id. -/
structure DbCredentials where
  username : String
  password : String
  database : String
deriving DecidableEq, Repr

/-- dbName = storeName.replace of every dash by an underscore. -/
def dbNameOf (storeName : String) : String :=
  String.mk (storeName.data.map fun c => if c = '-' then '_' else c)

/-- One resource-manager mutation call issued by the orchestrator, with the
arguments that identify it. -/
inductive RMCall where
  | createNamespace (nsName : String) (labels : List (String × String))
  | createResourceQuota (nsName cpuLimit memoryLimit storageLimit : String)
  | createSecret (nsName secretName : String) (data : List (String × String))
  | createPVC (nsName pvcName storageSize : String)
  | createService (nsName svcName : String) (port : Nat)
  | createDeployment (nsName depName image : String) (replicas : Nat)
  | createStatefulSet (nsName stsName image : String)
  | createIngress (nsName ingName host svcName : String) (svcPort : Nat) (cls : String)
  | deleteNamespace (nsName : String)
deriving DecidableEq, Repr

/-- The resource-manager behaviour for one provisioning run: the API response
to each create call (none = created), and the checkResourceStatus result seen
at each poll iteration of the readiness loop. -/
structure ProvisionEnv where
  nsRes : Option ApiErr
  quotaRes : Option ApiErr
  secretRes : Option ApiErr
  pvcRes : Option ApiErr
  dbSvcRes : Option ApiErr
  stsRes : Option ApiErr
  backendDeployRes : Option ApiErr
  backendSvcRes : Option ApiErr
  redisDeployRes : Option ApiErr
  redisSvcRes : Option ApiErr
  ingressRes : Option ApiErr
  polls : Nat → StoreResourceStatus

/-- The per-request quota structure computed in provisionStore step 2
(store-service.ts lines 102-108) from environment configuration.  It is a dead
local in the source: it is never passed to createResourceQuota. -/
def computedQuota (cfg : EnvConfig) : ResourceQuota :=
  { cpuRequest := cfg.defaultCpuRequest.getD "100m"
    cpuLimit := cfg.defaultCpuLimit.getD "500m"
    memoryRequest := cfg.defaultMemoryRequest.getD "256Mi"
    memoryLimit := cfg.defaultMemoryLimit.getD "1Gi"
    storage := cfg.defaultStorage.getD "5Gi" }

/-- The hard limits set by KubernetesClient.createResourceQuota from its three
string arguments (k8s-client.ts lines 409-416). -/
def resourceQuotaHard (cpuLimit memoryLimit storageLimit : String) :
    List (String × String) :=
  [("requests.cpu", cpuLimit), ("requests.memory", memoryLimit),
   ("requests.storage", storageLimit), ("persistentvolumeclaims", "5")]

/-- Run a sequence of awaited create calls: each call is issued only if every
earlier one succeeded; the first failure aborts the sequence with its message.
The second component is the list of calls actually issued. -/
def runSeq : List (Option ApiErr × RMCall) → Except String Unit × List RMCall
  | [] => (.ok (), [])
  | (res, call) :: rest =>
    match createResult res with
    | .error e => (.error e, [call])
    | .ok _ =>
      let r := runSeq rest
      (r.1, call :: r.2)

/-- The ordered create calls of provisionStore, paired with their environment
responses.  Steps 1-4 (namespace with id/engine/name labels, the quota call
with the literal arguments of store-service.ts lines 110-115, the credentials
secret) are common; engine MEDUSA then runs provisionMedusaStore, which creates
the database PVC, headless db service and statefulset, the backend deployment
and service, the redis deployment and service, and the ingress; engine
WOOCOMMERCE issues no further call before the stub throws. -/
def provisionCalls (cfg : EnvConfig) (env : ProvisionEnv) (engine : StoreEngine)
    (storeId displayName dbPassword : String) : List (Option ApiErr × RMCall) :=
  let nsName := "store-" ++ storeId
  let storeName := storeId
  let creds : DbCredentials := ⟨"storeuser", dbPassword, dbNameOf storeName⟩
  [(env.nsRes, .createNamespace nsName
      [("store-id", storeId), ("store-engine", engineLabel engine),
       ("store-name", displayName)]),
   (env.quotaRes, .createResourceQuota nsName "2" "4Gi" "10Gi"),
   (env.secretRes, .createSecret nsName (storeName ++ "-secrets")
      [("DB_USERNAME", creds.username), ("DB_PASSWORD", creds.password),
       ("DB_NAME", creds.database)])] ++
  (match engine with
   | .medusa =>
     [(env.pvcRes, .createPVC nsName (storeName ++ "-db-pvc") "5Gi"),
      (env.dbSvcRes, .createService nsName (storeName ++ "-db") 5432),
      (env.stsRes, .createStatefulSet nsName (storeName ++ "-db") "postgres:15-alpine"),
      (env.backendDeployRes, .createDeployment nsName (storeName ++ "-backend")
        "medusajs/medusa:latest" 1),
      (env.backendSvcRes, .createService nsName (storeName ++ "-backend") 9000),
      (env.redisDeployRes, .createDeployment nsName (storeName ++ "-redis")
        "redis:7-alpine" 1),
      (env.redisSvcRes, .createService nsName (storeName ++ "-redis") 6379),
      (env.ingressRes, .createIngress nsName (storeName ++ "-ingress")
        (storeName ++ domainOf cfg) (storeName ++ "-backend") 9000 (ingressClassOf cfg))]
   | .woocommerce => [])

/-- The body of provisionStore's try block for one store: run the create
sequence; if it all succeeded, engine WOOCOMMERCE throws the stub error
("WooCommerce provisioning not yet implemented") while engine MEDUSA runs
waitForStoreReady with the default 300-second timeout.  Returns the outcome
together with the trace of create calls issued. -/
def provisionRun (cfg : EnvConfig) (env : ProvisionEnv) (engine : StoreEngine)
    (storeId displayName dbPassword : String) : Except String Unit × List RMCall :=
  let storeName := storeId
  let r := runSeq (provisionCalls cfg env engine storeId displayName dbPassword)
  match r.1 with
  | .error e => (.error e, r.2)
  | .ok _ =>
    match engine with
    | .woocommerce => (.error "WooCommerce provisioning not yet implemented", r.2)
    | .medusa =>
      match waitForStoreReady storeName env.polls 300 with
      | .error e => (.error e, r.2)
      | .ok _ => (.ok (), r.2)

/-- The registry mutation at the end of the provisioning task: on success
(step 7) the record's status becomes READY and its urls are populated from the
store name and domain; on any thrown error (the catch block, and equally the
.catch handler installed by createStore) the status becomes FAILED and the
message is recorded.  The store object captured at entry is mutated; if the
record has left the map the map itself is unchanged. -/
def provisionFinish (cfg : EnvConfig) (reg : Registry) (storeId : String)
    (out : Except String Unit) : Registry :=
  match regGet reg storeId with
  | none => reg
  | some store =>
    match out with
    | .ok _ =>
      regSet reg storeId { store with status := .ready, urls := mkUrls cfg storeId }
    | .error e =>
      regSet reg storeId { store with status := .failed, error := some e }

/-- StoreOrchestrationService.refreshStoreStatus: unknown id throws "Store not
found"; a PROVISIONING record is re-checked once (the checkResourceStatus
result is the `check` input) and flipped to READY when deployment, database,
service and ingress all hold — its urls are not touched; any other record is
returned unchanged. -/
def refreshStoreStatus (reg : Registry) (storeId : String)
    (check : StoreResourceStatus) : Except String (Registry × StoreRec) :=
  match regGet reg storeId with
  | none => .error "Store not found"
  | some store =>
    if store.status = .provisioning then
      if check.deployment && check.database && check.service && check.ingress then
        let store' := { store with status := StoreStatus.ready }
        .ok (regSet reg storeId store', store')
      else
        .ok (reg, store)
    else
      .ok (reg, store)

/-- The synchronous prefix of deleteStore, up to the awaited namespace delete:
unknown id throws "Store not found" with the registry untouched; otherwise the
record's status is set to DELETING unconditionally. -/
def deleteStoreBegin (reg : Registry) (storeId : String) : Except String Registry :=
  match regGet reg storeId with
  | none => .error "Store not found"
  | some store => .ok (regSet reg storeId { store with status := StoreStatus.deleting })

/-- The continuation of deleteStore after the namespace delete resolves: on
success the record (briefly marked DELETED on the captured object) is removed
from the registry; on failure the record's status becomes FAILED with the
"Deletion failed: " message and the error is re-thrown. -/
def deleteStoreFinish (reg : Registry) (storeId : String) (res : Option ApiErr) :
    Except String Unit × Registry :=
  match deleteResult res with
  | .ok _ => (.ok (), regRemove reg storeId)
  | .error e =>
    match regGet reg storeId with
    | none => (.error e, reg)
    | some store =>
      (.error e,
       regSet reg storeId
         { store with status := .failed, error := some ("Deletion failed: " ++ e) })

/-- StoreOrchestrationService.deleteStore run to completion: look up the
record (unknown id throws "Store not found" before any resource-manager call),
set status DELETING, issue the single deleteNamespace call, then remove the
record on success or mark it FAILED with the deletion-specific message and
re-throw on failure.  Returns the outcome, the final registry, and the trace
of resource-manager calls issued. -/
def deleteStore (reg : Registry) (storeId : String) (res : Option ApiErr) :
    Except String Unit × Registry × List RMCall :=
  match regGet reg storeId with
  | none => (.error "Store not found", reg, [])
  | some store =>
    let reg1 := regSet reg storeId { store with status := StoreStatus.deleting }
    match deleteResult res with
    | .ok _ => (.ok (), regRemove reg1 storeId, [.deleteNamespace store.nsName])
    | .error e =>
      (.error e,
       regSet reg1 storeId
         { store with status := .failed, error := some ("Deletion failed: " ++ e) },
       [.deleteNamespace store.nsName])

/-- loadExistingStores applied to one namespace name: names starting with
"store-" are reconstructed as READY records (engine defaulted to MEDUSA, name
defaulted to the id, urls populated); the id strips the first occurrence of
"store-", which under the startsWith guard is the 6-character prefix. -/
def loadStore (cfg : EnvConfig) (now : String) (ns : String) : Option StoreRec :=
  if ("store-" : String).data.isPrefixOf ns.data then
    let storeId := String.mk (ns.data.drop 6)
    some
      { id := storeId
        name := storeId
        engine := .medusa
        status := .ready
        nsName := ns
        urls := mkUrls cfg storeId
        createdAt := now
        error := none }
  else
    none

/-- StoreOrchestrationService.loadExistingStores: seed the registry from the
resource manager's labelled namespaces at startup. -/
def loadExistingStores (cfg : EnvConfig) (now : String) (reg : Registry)
    (namespaces : List String) : Registry :=
  namespaces.foldl
    (fun r ns =>
      match loadStore cfg now ns with
      | some s => regSet r s.id s
      | none => r)
    reg

/-- The request body of POST /api/stores as seen by the controller. -/
structure CreateBody where
  name : Option String
  engine : Option String

/-- JavaScript falsiness of an optional string field: missing or empty. -/
def strFalsy : Option String → Bool
  | none => true
  | some v => v = ""

/-- Object.values(StoreEngine).includes(engine): the body's engine string must
be one of the two enum values. -/
def parseEngine (s : String) : Option StoreEngine :=
  if s = "medusa" then some .medusa
  else if s = "woocommerce" then some .woocommerce
  else none

/-- Result of the controller's create handler: HTTP status, registry afterward,
resource-manager calls made synchronously, and the record returned (202). -/
structure CtrlCreateResult where
  httpStatus : Nat
  reg : Registry
  calls : List RMCall
  created : Option StoreRec

/-- StoreController.createStore: 400 when name or engine is missing/empty or
the engine is not a known enum value; 429 when the registry already holds at
least MAX_STORES_PER_USER records (default 10), checked before the service is
invoked and before any resource-manager call; otherwise the service's
createStore runs (which itself makes no synchronous resource-manager call —
provisioning is detached) and 202 is returned with the new record. -/
def controllerCreateStore (cfg : EnvConfig) (reg : Registry) (body : CreateBody)
    (suffix createdAt : String) : CtrlCreateResult :=
  if strFalsy body.name || strFalsy body.engine then
    ⟨400, reg, [], none⟩
  else
    match body.name, body.engine with
    | some n, some engineStr =>
      match parseEngine engineStr with
      | none => ⟨400, reg, [], none⟩
      | some engine =>
        let maxStores := cfg.maxStoresPerUser.getD 10
        if maxStores ≤ reg.length then
          ⟨429, reg, [], none⟩
        else
          let r := createStore reg { name := n, engine := engine } suffix createdAt
          ⟨202, r.2, [], some r.1⟩
    | _, _ => ⟨400, reg, [], none⟩

/-- One registry mutation event of the running service: a create request (the
uuid suffix is fresh, modelling uuid uniqueness), the completion of a detached
provisioning task, a client-driven refresh, the two phases of a delete, or
startup reconciliation. -/
inductive Step (cfg : EnvConfig) : Registry → Registry → Prop
  | create (reg : Registry) (req : CreateStoreRequest) (suffix createdAt : String)
      (hfresh : regGet reg (mkStoreId req.name suffix) = none) :
      Step cfg reg (createStore reg req suffix createdAt).2
  | provision (reg : Registry) (storeId : String) (out : Except String Unit) :
      Step cfg reg (provisionFinish cfg reg storeId out)
  | refresh (reg reg' : Registry) (storeId : String) (check : StoreResourceStatus)
      (store : StoreRec) (h : refreshStoreStatus reg storeId check = .ok (reg', store)) :
      Step cfg reg reg'
  | deleteBegin (reg reg' : Registry) (storeId : String)
      (h : deleteStoreBegin reg storeId = .ok reg') :
      Step cfg reg reg'
  | deleteFinish (reg : Registry) (storeId : String) (res : Option ApiErr) :
      Step cfg reg (deleteStoreFinish reg storeId res).2
  | reconcile (reg : Registry) (namespaces : List String) (now : String) :
      Step cfg reg (loadExistingStores cfg now reg namespaces)

/-- The urls-discipline invariant that does survive the code: a record still
in PROVISIONING always has empty urls. -/
def InvProvUrls (reg : Registry) : Prop :=
  ∀ storeId store, regGet reg storeId = some store →
    store.status = .provisioning →
    store.urls.storefront = none ∧ store.urls.admin = none

section Lemmas

theorem regGet_regSet (reg : Registry) (storeId j : String) (store : StoreRec) :
    regGet (regSet reg storeId store) j =
      if j = storeId then some store else regGet reg j := by
  induction reg with
  | nil =>
    by_cases h : j = storeId
    · subst h; simp [regSet, regGet]
    · simp [regSet, regGet, h, Ne.symm h]
  | cons kv rest ih =>
    obtain ⟨k, v⟩ := kv
    by_cases hk : k = storeId
    · subst hk
      by_cases hj : j = k
      · subst hj; simp [regSet, regGet]
      · simp [regSet, regGet, hj, Ne.symm hj]
    · by_cases hj : j = k
      · subst hj
        simp [regSet, regGet, hk, Ne.symm hk]
      · simp [regSet, regGet, hk, hj, Ne.symm hj, ih]

theorem regGet_regRemove (reg : Registry) (storeId j : String) :
    regGet (regRemove reg storeId) j =
      if j = storeId then none else regGet reg j := by
  induction reg with
  | nil => simp [regRemove, regGet]
  | cons kv rest ih =>
    obtain ⟨k, v⟩ := kv
    by_cases hk : k = storeId
    · subst hk
      by_cases hj : j = k
      · subst hj; simp [regRemove, regGet, ih]
      · simp [regRemove, regGet, hj, Ne.symm hj, ih]
    · by_cases hj : j = k
      · subst hj
        simp [regRemove, regGet, hk, Ne.symm hk, ih]
      · simp [regRemove, regGet, hk, hj, Ne.symm hj, ih]

theorem string_data_append (a b : String) : (a ++ b).data = a.data ++ b.data := by
  cases a; cases b; rfl

theorem string_eq_of_data_eq (a b : String) (h : a.data = b.data) : a = b := by
  cases a; cases b; exact congrArg String.mk h

theorem string_length_eq_data_length (s : String) : s.length = s.data.length := rfl

/-- Two store ids built with equal-length distinct random suffixes differ,
whatever the sanitized names are. -/
theorem mkStoreId_ne (n1 n2 s1 s2 : String) (hlen : s1.length = s2.length)
    (hne : s1 ≠ s2) : mkStoreId n1 s1 ≠ mkStoreId n2 s2 := by
  intro h
  apply hne
  have hdata : (sanitizeName n1 ++ "-").data ++ s1.data =
      (sanitizeName n2 ++ "-").data ++ s2.data := by
    have h1 : (sanitizeName n1 ++ "-" ++ s1).data = (sanitizeName n2 ++ "-" ++ s2).data := by
      rw [show sanitizeName n1 ++ "-" ++ s1 = mkStoreId n1 s1 from rfl,
        show sanitizeName n2 ++ "-" ++ s2 = mkStoreId n2 s2 from rfl, h]
    rw [string_data_append, string_data_append] at h1
    exact h1
  have hlen' : s1.data.length = s2.data.length := by
    rw [← string_length_eq_data_length, ← string_length_eq_data_length]
    exact hlen
  have := (List.append_inj' hdata hlen').2
  exact string_eq_of_data_eq _ _ this

/-- Prefixing with "store-" is injective. -/
theorem nsName_ne (id1 id2 : String) (h : id1 ≠ id2) :
    ("store-" ++ id1 : String) ≠ "store-" ++ id2 := by
  intro hh
  apply h
  have hdata : ("store-" : String).data ++ id1.data =
      ("store-" : String).data ++ id2.data := by
    have := congrArg String.data hh
    rw [string_data_append, string_data_append] at this
    exact this
  exact string_eq_of_data_eq _ _ (List.append_cancel_left hdata)

/-- If at most three of the four gated conditions hold, the gate is closed. -/
theorem allReady_false_of_condCount_le (s : StoreResourceStatus)
    (h : condCount s ≤ 3) : allReady s = false := by
  obtain ⟨d, sv, ing, db, sec⟩ := s
  cases d <;> cases sv <;> cases ing <;> cases db <;>
    simp_all [allReady, condCount]

/-- The polling loop succeeds only if some poll within the window has all four
conditions true at once. -/
theorem waitLoop_ok (storeName : String) (polls : Nat → StoreResourceStatus) :
    ∀ fuel i, waitLoop storeName polls i fuel = .ok () →
      ∃ j, i ≤ j ∧ j < i + fuel ∧ allReady (polls j) = true := by
  intro fuel
  induction fuel with
  | zero => intro i h; simp [waitLoop] at h
  | succ n ih =>
    intro i h
    rw [waitLoop] at h
    by_cases hp : allReady (polls i) = true
    · exact ⟨i, le_refl i, by omega, hp⟩
    · rw [if_neg (by simp [hp])] at h
      obtain ⟨j, h1, h2, h3⟩ := ih (i + 1) h
      exact ⟨j, by omega, by omega, h3⟩

/-- If the gate is closed at every poll in the window, the loop times out. -/
theorem waitLoop_timeout (storeName : String) (polls : Nat → StoreResourceStatus) :
    ∀ fuel i, (∀ j, i ≤ j → j < i + fuel → allReady (polls j) = false) →
      waitLoop storeName polls i fuel = .error (timeoutMessage storeName) := by
  intro fuel
  induction fuel with
  | zero => intro i _; rfl
  | succ n ih =>
    intro i h
    rw [waitLoop]
    have hi : allReady (polls i) = false := h i (le_refl i) (by omega)
    rw [if_neg (by simp [hi])]
    exact ih (i + 1) fun j h1 h2 => h j (by omega) (by omega)

/-- Every call in a runSeq trace comes from the supplied call list. -/
theorem runSeq_trace_mem (l : List (Option ApiErr × RMCall)) :
    ∀ c ∈ (runSeq l).2, ∃ res, (res, c) ∈ l := by
  induction l with
  | nil => intro c hc; simp [runSeq] at hc
  | cons p rest ih =>
    obtain ⟨res, call⟩ := p
    intro c hc
    rw [runSeq] at hc
    cases hres : createResult res with
    | error e =>
      rw [hres] at hc
      simp at hc
      exact ⟨res, by simp [hc]⟩
    | ok u =>
      rw [hres] at hc
      simp at hc
      cases hc with
      | inl h => exact ⟨res, by simp [h]⟩
      | inr h =>
        obtain ⟨r, hr⟩ := ih c h
        exact ⟨r, by simp [hr]⟩

/-- A record found after startup reconciliation is either a reconstructed
READY record or was already in the registry. -/
theorem loadExistingStores_get (cfg : EnvConfig) (now : String) :
    ∀ (l : List String) (reg : Registry) (storeId : String) (store : StoreRec),
      regGet (loadExistingStores cfg now reg l) storeId = some store →
      store.status = .ready ∨ regGet reg storeId = some store := by
  intro l
  induction l with
  | nil => intro reg storeId store h; exact Or.inr h
  | cons ns rest ih =>
    intro reg storeId store h
    rw [loadExistingStores, List.foldl_cons] at h
    have h' := ih _ storeId store h
    cases h' with
    | inl hr => exact Or.inl hr
    | inr hr =>
      cases hload : loadStore cfg now ns with
      | none => rw [hload] at hr; exact Or.inr hr
      | some s =>
        rw [hload] at hr
        rw [regGet_regSet] at hr
        by_cases hid : storeId = s.id
        · rw [if_pos hid] at hr
          have hs : s.status = .ready := by
            unfold loadStore at hload
            by_cases hpre : ("store-" : String).data.isPrefixOf ns.data = true
            · rw [if_pos hpre] at hload
              cases hload
              rfl
            · rw [if_neg hpre] at hload; cases hload
          cases hr
          exact Or.inl hs
        · rw [if_neg hid] at hr; exact Or.inr hr

/-- All eleven create calls of a MEDUSA provisioning run succeed (or hit an
already-exists conflict, which the client swallows into success). -/
def allCreatesOk (env : ProvisionEnv) : Prop :=
  createResult env.nsRes = .ok () ∧ createResult env.quotaRes = .ok () ∧
  createResult env.secretRes = .ok () ∧ createResult env.pvcRes = .ok () ∧
  createResult env.dbSvcRes = .ok () ∧ createResult env.stsRes = .ok () ∧
  createResult env.backendDeployRes = .ok () ∧ createResult env.backendSvcRes = .ok () ∧
  createResult env.redisDeployRes = .ok () ∧ createResult env.redisSvcRes = .ok () ∧
  createResult env.ingressRes = .ok ()

theorem runSeq_all_ok (l : List (Option ApiErr × RMCall))
    (h : ∀ p ∈ l, createResult p.1 = .ok ()) :
    runSeq l = (.ok (), l.map Prod.snd) := by
  induction l with
  | nil => rfl
  | cons p rest ih =>
    obtain ⟨res, call⟩ := p
    have h1 : createResult res = .ok () := h (res, call) (by simp)
    have h2 := ih fun q hq => h q (by simp [hq])
    simp [runSeq, h1, h2]

/-- The trace of a provisioning run is exactly the trace of its create-call
sequence: neither the stub throw nor the readiness loop adds create calls. -/
theorem provisionRun_trace (cfg : EnvConfig) (env : ProvisionEnv) (engine : StoreEngine)
    (storeId displayName dbPassword : String) :
    (provisionRun cfg env engine storeId displayName dbPassword).2 =
      (runSeq (provisionCalls cfg env engine storeId displayName dbPassword)).2 := by
  unfold provisionRun
  cases hr : (runSeq (provisionCalls cfg env engine storeId displayName dbPassword)).1 with
  | error e => simp [hr]
  | ok u =>
    cases engine with
    | woocommerce => simp [hr]
    | medusa =>
      cases hw : waitForStoreReady storeId env.polls 300 <;> simp [hr, hw]

section Fixtures

/-- Fixture: configuration with every environment variable unset. -/
def exCfg : EnvConfig := ⟨none, none, none, none, none, none, none, none⟩

/-- Fixture: the record returned by creating store "acme" with uuid slice
"12345678" at time "t0". -/
def exStore : StoreRec := (createStore [] ⟨"acme", .medusa⟩ "12345678" "t0").1

/-- Fixture: the registry after that create. -/
def exReg : Registry := (createStore [] ⟨"acme", .medusa⟩ "12345678" "t0").2

/-- Fixture: a resource manager where every create succeeds and every poll of
the readiness loop reports exactly three of the four conditions (the database
statefulset never becomes ready). -/
def exEnv : ProvisionEnv :=
  ⟨none, none, none, none, none, none, none, none, none, none, none,
   fun _ => ⟨true, true, true, false, false⟩⟩

/-- Fixture: the registry after the provisioning task of the "acme" store
failed with message "boom". -/
def exFailedReg : Registry := provisionFinish exCfg exReg "acme-12345678" (.error "boom")

/-- Fixture: read results where every individual read errors. -/
def exReads : ReadResults :=
  ⟨.error "boom", .error "boom", .error "boom", .error "boom", .error "boom"⟩

/-- Fixture: a registry holding ten records. -/
def regTen : Registry := (List.range 10).map fun i => (toString i, exStore)

end Fixtures

/-- C10: checkResourceStatus never raises for any resource-manager response —
it is a total function into StoreResourceStatus — and an error from any
individual read is caught, leaving that condition and every condition checked
after it false (check order: deployment, service, ingress, database, secrets),
so a resource-manager error during polling or refresh reads as "not ready"
rather than propagating. -/
theorem check_status_catches_errors (r : ReadResults) :
    (∀ e, r.deploymentRead = .error e →
      checkResourceStatus r = ⟨false, false, false, false, false⟩) ∧
    (∀ e, r.serviceRead = .error e →
      (checkResourceStatus r).service = false ∧ (checkResourceStatus r).ingress = false ∧
      (checkResourceStatus r).database = false ∧ (checkResourceStatus r).secrets = false) ∧
    (∀ e, r.ingressRead = .error e →
      (checkResourceStatus r).ingress = false ∧ (checkResourceStatus r).database = false ∧
      (checkResourceStatus r).secrets = false) ∧
    (∀ e, r.databaseRead = .error e →
      (checkResourceStatus r).database = false ∧ (checkResourceStatus r).secrets = false) ∧
    (∀ e, r.secretsRead = .error e → (checkResourceStatus r).secrets = false) := by
  obtain ⟨dr, sr, ir, br, cr⟩ := r
  refine ⟨?_, ?_, ?_, ?_, ?_⟩ <;> intro e he
  · subst he; simp [checkResourceStatus]
  · subst he; cases dr <;> simp [checkResourceStatus]
  · subst he; cases dr <;> cases sr <;> simp [checkResourceStatus]
  · subst he; cases dr <;> cases sr <;> cases ir <;> simp [checkResourceStatus]
  · subst he; cases dr <;> cases sr <;> cases ir <;> cases br <;>
      simp [checkResourceStatus]

/-- C10 witness: with every read failing, the returned status is all-false. -/
theorem check_status_catches_errors_witness :
    checkResourceStatus exReads = ⟨false, false, false, false, false⟩ :=
  (check_status_catches_errors exReads).1 "boom" rfl

/-- C3: the readiness loop returns success only in a poll iteration where all
four conditions (deployment available, database ready, service exists, ingress
exists) hold simultaneously in one read; and when at most three of the four
hold at every poll of the 300-second window (60 polls at 5-second intervals),
a MEDUSA provisioning run whose create calls all succeeded throws the timeout
error and the record ends FAILED with the timeout message, not READY. -/
theorem readiness_polling_all_four_and_timeout :
    (∀ storeName polls i fuel, waitLoop storeName polls i fuel = .ok () →
      ∃ j, i ≤ j ∧ j < i + fuel ∧ allReady (polls j) = true) ∧
    (∀ cfg env storeId displayName dbPassword (reg : Registry) store,
      allCreatesOk env →
      (∀ j, condCount (env.polls j) ≤ 3) →
      regGet reg storeId = some store →
      (provisionRun cfg env .medusa storeId displayName dbPassword).1 =
        .error (timeoutMessage storeId) ∧
      ∃ store',
        regGet (provisionFinish cfg reg storeId
          (provisionRun cfg env .medusa storeId displayName dbPassword).1) storeId =
          some store' ∧
        store'.status = .failed ∧ store'.status ≠ .ready ∧
        store'.error = some (timeoutMessage storeId)) := by
  constructor
  · intro storeName polls i fuel h
    exact waitLoop_ok storeName polls fuel i h
  · intro cfg env storeId displayName dbPassword reg store hok hpolls hreg
    obtain ⟨h1, h2, h3, h4, h5, h6, h7, h8, h9, h10, h11⟩ := hok
    have hall : ∀ p ∈ provisionCalls cfg env .medusa storeId displayName dbPassword,
        createResult p.1 = .ok () := by
      intro p hp
      simp only [provisionCalls, List.mem_append, List.mem_cons,
        List.not_mem_nil, or_false] at hp
      rcases hp with ((rfl | rfl | rfl) | (rfl | rfl | rfl | rfl | rfl | rfl | rfl | rfl)) <;>
        assumption
    have hseq := runSeq_all_ok _ hall
    have hwait : waitForStoreReady storeId env.polls 300 =
        .error (timeoutMessage storeId) := by
      unfold waitForStoreReady
      exact waitLoop_timeout storeId env.polls (numPolls 300) 0
        (fun j _ _ => allReady_false_of_condCount_le _ (hpolls j))
    have hrun : (provisionRun cfg env .medusa storeId displayName dbPassword).1 =
        .error (timeoutMessage storeId) := by
      unfold provisionRun
      simp [hseq, hwait]
    refine ⟨hrun, ?_⟩
    rw [hrun]
    simp [provisionFinish, hreg, regGet_regSet]

/-- C3 witness: with all creates succeeding and every poll reporting only
three of the four conditions, the "acme" store's provisioning run times out
and the record ends FAILED with the timeout message. -/
theorem readiness_polling_timeout_witness :
    (provisionRun exCfg exEnv .medusa "acme-12345678" "acme" "pw").1 =
      .error (timeoutMessage "acme-12345678") ∧
    ∃ store',
      regGet (provisionFinish exCfg exReg "acme-12345678"
        (provisionRun exCfg exEnv .medusa "acme-12345678" "acme" "pw").1) "acme-12345678" =
        some store' ∧
      store'.status = .failed ∧ store'.status ≠ .ready ∧
      store'.error = some (timeoutMessage "acme-12345678") :=
  readiness_polling_all_four_and_timeout.2 exCfg exEnv "acme-12345678" "acme" "pw"
    exReg exStore ⟨rfl, rfl, rfl, rfl, rfl, rfl, rfl, rfl, rfl, rfl, rfl⟩
    (fun j => by simp [exEnv, condCount]) (by decide)

/-- C4: for a registered store id, deleteStore removes the record from the
registry exactly when the client's namespace delete succeeds; when it fails,
the record stays in the registry with status FAILED and an error message
prefixed with "Deletion failed: ", and the error is re-raised. -/
theorem delete_removes_only_after_success (reg : Registry) (storeId : String)
    (store : StoreRec) (res : Option ApiErr) (h : regGet reg storeId = some store) :
    (deleteResult res = .ok () →
      (deleteStore reg storeId res).1 = .ok () ∧
      regGet (deleteStore reg storeId res).2.1 storeId = none) ∧
    (∀ e, deleteResult res = .error e →
      (deleteStore reg storeId res).1 = .error e ∧
      regGet (deleteStore reg storeId res).2.1 storeId =
        some { store with status := .failed,
                          error := some ("Deletion failed: " ++ e) }) := by
  constructor
  · intro hok
    simp [deleteStore, h, hok, regGet_regRemove]
  · intro e herr
    simp [deleteStore, h, herr, regGet_regSet]

/-- C4 witness: deleting the "acme" store with the namespace delete failing
(HTTP 500 "boom") re-raises "boom" and leaves the record FAILED with the
deletion-specific message. -/
theorem delete_failure_witness :
    (deleteStore exReg "acme-12345678" (some ⟨some 500, "boom"⟩)).1 = .error "boom" ∧
    regGet (deleteStore exReg "acme-12345678" (some ⟨some 500, "boom"⟩)).2.1
        "acme-12345678" =
      some { exStore with status := .failed,
                          error := some ("Deletion failed: " ++ "boom") } :=
  (delete_removes_only_after_success exReg "acme-12345678" exStore
    (some ⟨some 500, "boom"⟩) (by decide)).2 "boom" rfl

/-- C5: deleting an id absent from the registry fails with "Store not found",
issues no resource-manager call, and leaves the registry unchanged. -/
theorem delete_nonexistent_no_rm_call (reg : Registry) (storeId : String)
    (res : Option ApiErr) (h : regGet reg storeId = none) :
    deleteStore reg storeId res = (.error "Store not found", reg, []) := by
  simp [deleteStore, h]

/-- C5 witness: deleting "ghost" from the empty registry. -/
theorem delete_nonexistent_witness :
    deleteStore [] "ghost" none = (.error "Store not found", [], []) :=
  delete_nonexistent_no_rm_call [] "ghost" none rfl

/-- C6: a WOOCOMMERCE provisioning run whose namespace, quota and secret
creations succeed always ends with the stub error, whose message contains
"not yet implemented"; exactly the namespace, quota and credentials-secret
calls were issued before the failure point, and the record ends FAILED with
that message. -/
theorem woocommerce_always_fails_after_partial_creation
    (cfg : EnvConfig) (env : ProvisionEnv) (storeId displayName dbPassword : String)
    (reg : Registry) (store : StoreRec)
    (h1 : createResult env.nsRes = .ok ()) (h2 : createResult env.quotaRes = .ok ())
    (h3 : createResult env.secretRes = .ok ())
    (hreg : regGet reg storeId = some store) :
    (provisionRun cfg env .woocommerce storeId displayName dbPassword).1 =
      .error "WooCommerce provisioning not yet implemented" ∧
    (provisionRun cfg env .woocommerce storeId displayName dbPassword).2 =
      [.createNamespace ("store-" ++ storeId)
         [("store-id", storeId), ("store-engine", "woocommerce"),
          ("store-name", displayName)],
       .createResourceQuota ("store-" ++ storeId) "2" "4Gi" "10Gi",
       .createSecret ("store-" ++ storeId) (storeId ++ "-secrets")
         [("DB_USERNAME", "storeuser"), ("DB_PASSWORD", dbPassword),
          ("DB_NAME", dbNameOf storeId)]] ∧
    (∃ pre post, "WooCommerce provisioning not yet implemented" =
      pre ++ "not yet implemented" ++ post) ∧
    ∃ store',
      regGet (provisionFinish cfg reg storeId
        (provisionRun cfg env .woocommerce storeId displayName dbPassword).1) storeId =
        some store' ∧
      store'.status = .failed ∧
      store'.error = some "WooCommerce provisioning not yet implemented" := by
  have hall : ∀ p ∈ provisionCalls cfg env .woocommerce storeId displayName dbPassword,
      createResult p.1 = .ok () := by
    intro p hp
    simp only [provisionCalls, List.mem_append, List.mem_cons,
      List.not_mem_nil, or_false] at hp
    rcases hp with rfl | rfl | rfl <;> assumption
  have hseq := runSeq_all_ok _ hall
  have hrun : provisionRun cfg env .woocommerce storeId displayName dbPassword =
      (.error "WooCommerce provisioning not yet implemented",
       (provisionCalls cfg env .woocommerce storeId displayName dbPassword).map
         Prod.snd) := by
    unfold provisionRun
    simp [hseq]
  rw [hrun]
  refine ⟨rfl, ?_, ⟨"WooCommerce provisioning ", "", rfl⟩, ?_⟩
  · simp [provisionCalls, engineLabel]
  · simp [provisionFinish, hreg, regGet_regSet]

/-- C6 witness: the "acme" store provisioned as WOOCOMMERCE ends FAILED with
the stub message. -/
theorem woocommerce_fails_witness :
    (provisionRun exCfg exEnv .woocommerce "acme-12345678" "acme" "pw").1 =
      .error "WooCommerce provisioning not yet implemented" :=
  (woocommerce_always_fails_after_partial_creation exCfg exEnv "acme-12345678" "acme"
    "pw" exReg exStore rfl rfl rfl (by decide)).1

/-- C7: createStore returns a record in status PROVISIONING, and two create
calls whose 8-character uuid slices differ — in particular two calls with the
same name — yield records with distinct ids and distinct namespaces. -/
theorem create_provisioning_and_unique_ids
    (reg1 reg2 : Registry) (req1 req2 : CreateStoreRequest)
    (suffix1 suffix2 createdAt1 createdAt2 : String)
    (hlen1 : suffix1.length = 8) (hlen2 : suffix2.length = 8)
    (hne : suffix1 ≠ suffix2) :
    (createStore reg1 req1 suffix1 createdAt1).1.status = .provisioning ∧
    (createStore reg2 req2 suffix2 createdAt2).1.status = .provisioning ∧
    (createStore reg1 req1 suffix1 createdAt1).1.id ≠
      (createStore reg2 req2 suffix2 createdAt2).1.id ∧
    (createStore reg1 req1 suffix1 createdAt1).1.nsName ≠
      (createStore reg2 req2 suffix2 createdAt2).1.nsName := by
  refine ⟨rfl, rfl, ?_, ?_⟩
  · exact mkStoreId_ne req1.name req2.name suffix1 suffix2 (hlen1.trans hlen2.symm) hne
  · exact nsName_ne _ _
      (mkStoreId_ne req1.name req2.name suffix1 suffix2 (hlen1.trans hlen2.symm) hne)

/-- C7 witness: two creates of the same name "acme" with distinct uuid slices
give distinct ids. -/
theorem create_unique_ids_witness :
    (createStore [] ⟨"acme", .medusa⟩ "12345678" "t0").1.id ≠
      (createStore [] ⟨"acme", .medusa⟩ "87654321" "t1").1.id :=
  (create_provisioning_and_unique_ids [] [] ⟨"acme", .medusa⟩ ⟨"acme", .medusa⟩
    "12345678" "87654321" "t0" "t1" rfl rfl (by decide)).2.2.1

/-- C8: in every MEDUSA provisioning run, for any environment configuration,
every resource-quota call issued carries the fixed literals "2" / "4Gi" /
"10Gi" — the per-request computedQuota structure is never passed — the client
turns those literals into the namespace's hard limits, and under successful
creates the literal quota call is indeed in the trace. -/
theorem quota_uses_fixed_literals (cfg : EnvConfig) (env : ProvisionEnv)
    (storeId displayName dbPassword : String) :
    (∀ ns cpu mem sto,
      RMCall.createResourceQuota ns cpu mem sto ∈
        (provisionRun cfg env .medusa storeId displayName dbPassword).2 →
      cpu = "2" ∧ mem = "4Gi" ∧ sto = "10Gi") ∧
    resourceQuotaHard "2" "4Gi" "10Gi" =
      [("requests.cpu", "2"), ("requests.memory", "4Gi"),
       ("requests.storage", "10Gi"), ("persistentvolumeclaims", "5")] ∧
    (∀ q : ResourceQuota, computedQuota cfg = q →
      ∀ ns cpu mem sto,
        RMCall.createResourceQuota ns cpu mem sto ∈
          (provisionRun cfg env .medusa storeId displayName dbPassword).2 →
        cpu = "2" ∧ mem = "4Gi" ∧ sto = "10Gi") ∧
    (allCreatesOk env →
      RMCall.createResourceQuota ("store-" ++ storeId) "2" "4Gi" "10Gi" ∈
        (provisionRun cfg env .medusa storeId displayName dbPassword).2) := by
  have hmain : ∀ ns cpu mem sto,
      RMCall.createResourceQuota ns cpu mem sto ∈
        (provisionRun cfg env .medusa storeId displayName dbPassword).2 →
      cpu = "2" ∧ mem = "4Gi" ∧ sto = "10Gi" := by
    intro ns cpu mem sto hmem
    rw [provisionRun_trace] at hmem
    obtain ⟨res, hres⟩ := runSeq_trace_mem _ _ hmem
    simp only [provisionCalls, List.mem_append, List.mem_cons,
      List.not_mem_nil, or_false, Prod.mk.injEq] at hres
    rcases hres with ((⟨h1, h2⟩ | ⟨h1, h2⟩ | ⟨h1, h2⟩) |
      (⟨h1, h2⟩ | ⟨h1, h2⟩ | ⟨h1, h2⟩ | ⟨h1, h2⟩ | ⟨h1, h2⟩ | ⟨h1, h2⟩ | ⟨h1, h2⟩ |
        ⟨h1, h2⟩)) <;> simp_all
  refine ⟨hmain, rfl, fun q hq => hmain, ?_⟩
  intro hok
  obtain ⟨h1, h2, h3, h4, h5, h6, h7, h8, h9, h10, h11⟩ := hok
  have hall : ∀ p ∈ provisionCalls cfg env .medusa storeId displayName dbPassword,
      createResult p.1 = .ok () := by
    intro p hp
    simp only [provisionCalls, List.mem_append, List.mem_cons,
      List.not_mem_nil, or_false] at hp
    rcases hp with ((rfl | rfl | rfl) | (rfl | rfl | rfl | rfl | rfl | rfl | rfl | rfl)) <;>
      assumption
  rw [provisionRun_trace, runSeq_all_ok _ hall]
  simp [provisionCalls]

/-- C8 witness: with all creates succeeding, the run of the "acme" store
issues the resource-quota call with the fixed literal limits. -/
theorem quota_literal_call_witness :
    RMCall.createResourceQuota ("store-" ++ "acme-12345678") "2" "4Gi" "10Gi" ∈
      (provisionRun exCfg exEnv .medusa "acme-12345678" "acme" "pw").2 :=
  (quota_uses_fixed_literals exCfg exEnv "acme-12345678" "acme" "pw").2.2.2
    ⟨rfl, rfl, rfl, rfl, rfl, rfl, rfl, rfl, rfl, rfl, rfl⟩

/-- C9: when the registry already holds at least MAX_STORES_PER_USER records
(default 10), a valid create request is rejected with 429 before the service's
createStore is invoked and before any resource-manager call: the registry is
unchanged, no call is issued, and no record is returned. -/
theorem create_rejected_at_ceiling (cfg : EnvConfig) (reg : Registry)
    (n engineStr suffix createdAt : String) (engine : StoreEngine)
    (hn : n ≠ "") (heng : parseEngine engineStr = some engine)
    (hceil : cfg.maxStoresPerUser.getD 10 ≤ reg.length) :
    controllerCreateStore cfg reg ⟨some n, some engineStr⟩ suffix createdAt =
      ⟨429, reg, [], none⟩ := by
  have hestr : engineStr ≠ "" := by
    intro h
    rw [h] at heng
    simp [parseEngine] at heng
  unfold controllerCreateStore
  simp only [strFalsy, hn, hestr, decide_eq_true_eq, Bool.or_self,
    decide_eq_false, Bool.false_or]
  rw [if_neg (by simp [hn, hestr])]
  rw [heng]
  simp only [hceil, if_pos]

/-- C9 witness: with ten records in the registry and the default ceiling, an
eleventh valid create is rejected with 429 and the registry is unchanged. -/
theorem create_rejected_at_ceiling_witness :
    controllerCreateStore exCfg regTen ⟨some "acme", some "medusa"⟩ "12345678" "t0" =
      ⟨429, regTen, [], none⟩ :=
  create_rejected_at_ceiling exCfg regTen "acme" "medusa" "12345678" "t0"
    .medusa (by decide) rfl (by simp [exCfg, regTen])

theorem inv_regSet (reg : Registry) (storeId : String) (store : StoreRec)
    (hInv : InvProvUrls reg)
    (hstore : store.status = .provisioning →
      store.urls.storefront = none ∧ store.urls.admin = none) :
    InvProvUrls (regSet reg storeId store) := by
  intro sid s hget hprov
  rw [regGet_regSet] at hget
  by_cases hid : sid = storeId
  · rw [if_pos hid] at hget
    cases hget
    exact hstore hprov
  · rw [if_neg hid] at hget
    exact hInv sid s hget hprov

theorem inv_regRemove (reg : Registry) (storeId : String) (hInv : InvProvUrls reg) :
    InvProvUrls (regRemove reg storeId) := by
  intro sid s hget hprov
  rw [regGet_regRemove] at hget
  by_cases hid : sid = storeId
  · rw [if_pos hid] at hget
    cases hget
  · rw [if_neg hid] at hget
    exact hInv sid s hget hprov

/-- Records written by regSet steps whose status is not PROVISIONING can never
re-create a PROVISIONING record over an existing one. -/
theorem noReenter_regSet (reg : Registry) (storeId : String) (store : StoreRec)
    (hst : store.status ≠ .provisioning) (sid : String) (r r' : StoreRec)
    (hget : regGet reg sid = some r)
    (hget' : regGet (regSet reg storeId store) sid = some r')
    (hprov : r'.status = .provisioning) : r.status = .provisioning := by
  rw [regGet_regSet] at hget'
  by_cases hid : sid = storeId
  · rw [if_pos hid] at hget'
    cases hget'
    exact absurd hprov hst
  · rw [if_neg hid] at hget'
    rw [hget] at hget'
    injection hget' with hh
    subst hh
    exact hprov

/-- C1 amended: every operation preserves the invariant that a record still in
PROVISIONING has empty urls, and the provisioning success path sets status
READY together with non-empty urls (storefront and admin).  The full
"urls non-empty iff READY" biconditional of the claim does not hold:
refreshStoreStatus flips a PROVISIONING record to READY without touching its
urls (see the counterexample), and deleteStore leaves urls populated while the
status becomes DELETING or FAILED. -/
theorem urls_discipline_amended :
    (∀ cfg reg reg', Step cfg reg reg' → InvProvUrls reg → InvProvUrls reg') ∧
    (∀ cfg (reg : Registry) storeId store, regGet reg storeId = some store →
      ∃ store',
        regGet (provisionFinish cfg reg storeId (.ok ())) storeId = some store' ∧
        store'.status = .ready ∧
        store'.urls.storefront ≠ none ∧ store'.urls.admin ≠ none) := by
  constructor
  · intro cfg reg reg' hstep hInv
    cases hstep with
    | create req suffix createdAt hfresh =>
      exact inv_regSet _ _ _ hInv (fun _ => ⟨rfl, rfl⟩)
    | provision storeId out =>
      unfold provisionFinish
      cases hre : regGet reg storeId with
      | none => exact hInv
      | some store =>
        cases out with
        | ok u =>
          exact inv_regSet _ _ _ hInv (fun hp => absurd hp (by simp))
        | error e =>
          exact inv_regSet _ _ _ hInv (fun hp => absurd hp (by simp))
    | refresh reg' storeId check store h =>
      unfold refreshStoreStatus at h
      split at h
      · exact absurd h (by simp)
      · split at h
        · split at h
          · injection h with hpair
            rw [Prod.mk.injEq] at hpair
            obtain ⟨h1, h2⟩ := hpair
            subst h1
            exact inv_regSet _ _ _ hInv (fun hp => absurd hp (by simp))
          · injection h with hpair
            rw [Prod.mk.injEq] at hpair
            obtain ⟨h1, h2⟩ := hpair
            subst h1
            exact hInv
        · injection h with hpair
          rw [Prod.mk.injEq] at hpair
          obtain ⟨h1, h2⟩ := hpair
          subst h1
          exact hInv
    | deleteBegin reg' storeId h =>
      unfold deleteStoreBegin at h
      cases hre : regGet reg storeId with
      | none => rw [hre] at h; simp at h
      | some st =>
        rw [hre] at h
        injection h with h1
        subst h1
        exact inv_regSet _ _ _ hInv (fun hp => absurd hp (by simp))
    | deleteFinish storeId res =>
      unfold deleteStoreFinish
      cases hdel : deleteResult res with
      | ok u => exact inv_regRemove _ _ hInv
      | error e =>
        cases hre : regGet reg storeId with
        | none => exact hInv
        | some st =>
          exact inv_regSet _ _ _ hInv (fun hp => absurd hp (by simp))
    | reconcile namespaces now =>
      intro sid s hget hprov
      rcases loadExistingStores_get cfg now namespaces reg sid s hget with hr | hr
      · rw [hprov] at hr
        exact StoreStatus.noConfusion hr
      · exact hInv sid s hr hprov
  · intro cfg reg storeId store h
    simp [provisionFinish, h, regGet_regSet, mkUrls]

/-- C1 counterexample: the claim fails on the code.  A freshly created record
is PROVISIONING with empty urls; refreshStoreStatus with all four conditions
true flips it to READY but leaves both urls empty, so the resulting record is
READY with empty urls, contradicting "urls is non-empty iff status is READY"
and in particular the claim's refresh clause. -/
theorem refresh_ready_empty_urls_cx :
    ∃ reg' store',
      refreshStoreStatus exReg "acme-12345678" ⟨true, true, true, true, true⟩ =
        .ok (reg', store') ∧
      store'.status = .ready ∧ store'.urls.storefront = none ∧
      store'.urls.admin = none := by
  refine ⟨_, _, rfl, rfl, rfl, rfl⟩

/-- C1 witness: the invariant-preservation half applied to a concrete create
step out of the empty registry, and the success half applied to the "acme"
registry. -/
theorem urls_discipline_amended_witness :
    InvProvUrls exReg ∧
    ∃ store',
      regGet (provisionFinish exCfg exReg "acme-12345678" (.ok ())) "acme-12345678" =
        some store' ∧
      store'.status = .ready ∧
      store'.urls.storefront ≠ none ∧ store'.urls.admin ≠ none :=
  ⟨urls_discipline_amended.1 exCfg [] exReg
      (Step.create [] ⟨"acme", .medusa⟩ "12345678" "t0" rfl)
      (fun sid s hget hp => by simp [regGet] at hget),
   urls_discipline_amended.2 exCfg exReg "acme-12345678" exStore (by decide)⟩

/-- C2 amended: no operation ever sets a record's status back to PROVISIONING
once it has left that state (PROVISIONING is assigned only when createStore
first inserts a record under a fresh id), but the claim's DELETING clause
fails on the code: deleteStore sets status DELETING unconditionally, from any
current status, not only from READY (see the counterexample). -/
theorem status_transitions_amended :
    (∀ cfg reg reg' storeId r r', Step cfg reg reg' →
      regGet reg storeId = some r → regGet reg' storeId = some r' →
      r'.status = .provisioning → r.status = .provisioning) ∧
    (∀ (reg : Registry) storeId store, regGet reg storeId = some store →
      ∃ reg', deleteStoreBegin reg storeId = .ok reg' ∧
        regGet reg' storeId = some { store with status := StoreStatus.deleting }) := by
  constructor
  · intro cfg reg reg' storeId r r' hstep hget hget' hprov
    cases hstep with
    | create req suffix createdAt hfresh =>
      have hset : regGet (createStore reg req suffix createdAt).2 storeId = some r' :=
        hget'
      rw [show (createStore reg req suffix createdAt).2 =
          regSet reg (mkStoreId req.name suffix)
            (createStore reg req suffix createdAt).1 from rfl] at hset
      rw [regGet_regSet] at hset
      by_cases hid : storeId = mkStoreId req.name suffix
      · rw [hid] at hget
        rw [hfresh] at hget
        exact Option.noConfusion hget
      · rw [if_neg hid] at hset
        rw [hget] at hset
        injection hset with hh
        subst hh
        exact hprov
    | provision pid out =>
      unfold provisionFinish at hget'
      cases hre : regGet reg pid with
      | none =>
        rw [hre] at hget'
        rw [hget] at hget'
        injection hget' with hh
        subst hh
        exact hprov
      | some store =>
        rw [hre] at hget'
        cases out with
        | ok u =>
          exact noReenter_regSet reg pid _ (by simp) storeId r r' hget hget' hprov
        | error e =>
          exact noReenter_regSet reg pid _ (by simp) storeId r r' hget hget' hprov
    | refresh reg' pid check store h =>
      unfold refreshStoreStatus at h
      split at h
      · exact absurd h (by simp)
      · split at h
        · split at h
          · injection h with hpair
            rw [Prod.mk.injEq] at hpair
            obtain ⟨h1, h2⟩ := hpair
            subst h1
            exact noReenter_regSet reg pid _ (by simp) storeId r r' hget hget' hprov
          · injection h with hpair
            rw [Prod.mk.injEq] at hpair
            obtain ⟨h1, h2⟩ := hpair
            subst h1
            rw [hget] at hget'
            injection hget' with hh
            subst hh
            exact hprov
        · injection h with hpair
          rw [Prod.mk.injEq] at hpair
          obtain ⟨h1, h2⟩ := hpair
          subst h1
          rw [hget] at hget'
          injection hget' with hh
          subst hh
          exact hprov
    | deleteBegin reg' pid h =>
      unfold deleteStoreBegin at h
      cases hre : regGet reg pid with
      | none => rw [hre] at h; simp at h
      | some st =>
        rw [hre] at h
        injection h with h1
        subst h1
        exact noReenter_regSet reg pid _ (by simp) storeId r r' hget hget' hprov
    | deleteFinish pid res =>
      unfold deleteStoreFinish at hget'
      cases hdel : deleteResult res with
      | ok u =>
        rw [hdel] at hget'
        rw [regGet_regRemove] at hget'
        by_cases hid : storeId = pid
        · rw [if_pos hid] at hget'
          exact Option.noConfusion hget'
        · rw [if_neg hid] at hget'
          rw [hget] at hget'
          injection hget' with hh
          subst hh
          exact hprov
      | error e =>
        rw [hdel] at hget'
        cases hre : regGet reg pid with
        | none =>
          rw [hre] at hget'
          rw [hget] at hget'
          injection hget' with hh
          subst hh
          exact hprov
        | some st =>
          rw [hre] at hget'
          exact noReenter_regSet reg pid _ (by simp) storeId r r' hget hget' hprov
    | reconcile namespaces now =>
      rcases loadExistingStores_get cfg now namespaces reg storeId r' hget' with hr | hr
      · rw [hprov] at hr
        exact StoreStatus.noConfusion hr
      · rw [hget] at hr
        injection hr with hh
        subst hh
        exact hprov
  · intro reg storeId store h
    refine ⟨regSet reg storeId { store with status := StoreStatus.deleting }, ?_, ?_⟩
    · simp [deleteStoreBegin, h]
    · simp [regGet_regSet]

/-- C2 counterexample: the claim fails on the code.  After the provisioning
task of the freshly created "acme" store fails, its record has status FAILED;
deleteStore on that record sets its status to DELETING even though the current
status is FAILED, not READY, violating the claimed state diagram. -/
theorem delete_from_failed_cx :
    ∃ store reg',
      regGet exFailedReg "acme-12345678" = some store ∧
      store.status = .failed ∧
      deleteStoreBegin exFailedReg "acme-12345678" = .ok reg' ∧
      regGet reg' "acme-12345678" =
        some { store with status := StoreStatus.deleting } := by
  refine ⟨_, _, rfl, rfl, rfl, rfl⟩

/-- C2 witness: the no-reentry half applied to a concrete provisioning-failure
step on the "acme" registry, and the DELETING half applied to that record. -/
theorem status_transitions_amended_witness :
    exStore.status = .provisioning ∧
    ∃ reg', deleteStoreBegin exReg "acme-12345678" = .ok reg' ∧
      regGet reg' "acme-12345678" =
        some { exStore with status := StoreStatus.deleting } :=
  ⟨status_transitions_amended.1 exCfg exReg exReg "acme-12345678" exStore exStore
      (Step.refresh exReg exReg "acme-12345678" ⟨false, false, false, false, false⟩
        exStore (by rfl))
      (by decide) (by decide) (by decide),
   status_transitions_amended.2 exReg "acme-12345678" exStore (by decide)⟩

end Lemmas

end StorePlane
